import Mathlib

/-!
Verification of the web-to-lead form-validation script (src/function.js).

The script is a browser form validator: pure predicates for email, phone and
URL syntax, per-field error-state updates on the DOM, a whole-form validation
pass, a submit handler that blocks native submission on failure, and a
debounce helper for deferred email re-validation.

We embed the script shallowly: the pure validators become Lean functions on
String, the DOM class/error state of one input becomes an explicit record,
and the submit handler becomes a function from the form state to an outcome
record. Browser built-ins the script calls (regular expressions,
String.prototype.trim, the WHATWG URL constructor, setTimeout timers) are
modelled explicitly; each model says so in its doc comment.
-/

namespace WebToLead

/-- The set of characters matched by the JavaScript regular-expression class
backslash-s and stripped by String.prototype.trim: ASCII whitespace, NBSP,
the Unicode space separators, line/paragraph separators and the BOM. -/
def jsWhitespace (c : Char) : Bool :=
  c == ' ' || c == '\t' || c == '\n' || c == '\r' ||
  c.toNat == 11 || c.toNat == 12 ||
  c.toNat == 0xa0 || c.toNat == 0x1680 ||
  (decide (0x2000 ≤ c.toNat) && decide (c.toNat ≤ 0x200a)) ||
  c.toNat == 0x2028 || c.toNat == 0x2029 || c.toNat == 0x202f ||
  c.toNat == 0x205f || c.toNat == 0x3000 || c.toNat == 0xfeff

/-- Model of JavaScript String.prototype.trim: strip jsWhitespace from both
ends. -/
def jsTrim (s : String) : String :=
  String.mk (((s.data.dropWhile jsWhitespace).reverse.dropWhile jsWhitespace).reverse)

/-! ### Anchored regular expressions

Both regular expressions of the script have the shape
caret (class or class-plus)* dollar, so an element is either a single
character from a class or one-or-more characters from a class, and a
pattern is a list of such elements matched against the whole string
(the script always calls test on fully anchored patterns). -/

/-- One element of an anchored pattern: a single character of a class, or
one-or-more characters of a class. -/
inductive RElem where
  | one (p : Char → Bool)
  | star1 (p : Char → Bool)

/-- Backtracking matcher for an anchored pattern against a character list. -/
def reMatch : List RElem → List Char → Bool
  | [], cs => cs.isEmpty
  | RElem.one _ :: _, [] => false
  | RElem.one p :: rs, c :: cs => p c && reMatch rs cs
  | RElem.star1 _ :: _, [] => false
  | RElem.star1 p :: rs, c :: cs =>
      p c && (reMatch rs cs || reMatch (RElem.star1 p :: rs) cs)

/-- Character class of the email pattern: anything but whitespace and @. -/
def emailChar (c : Char) : Bool :=
  !jsWhitespace c && !(c == '@')

/-- The email pattern of isValidEmail in src/function.js line 211:
one-or-more non-space-non-at, an @, one-or-more non-space-non-at, a dot,
one-or-more non-space-non-at, anchored at both ends. -/
def emailRegex : List RElem :=
  [RElem.star1 emailChar, RElem.one (fun c => c == '@'), RElem.star1 emailChar,
   RElem.one (fun c => c == '.'), RElem.star1 emailChar]

/-- isValidEmail from src/function.js lines 210-213. -/
def isValidEmail (email : String) : Bool :=
  reMatch emailRegex email.data

/-- Character class of the phone pattern: digits, whitespace, dash,
parentheses and plus. -/
def phoneChar (c : Char) : Bool :=
  c.isDigit || jsWhitespace c || c == '-' || c == '(' || c == ')' || c == '+'

/-- The phone pattern of isValidPhone: one-or-more characters of phoneChar,
anchored at both ends. -/
def phoneRegex : List RElem :=
  [RElem.star1 phoneChar]

/-- The cleaning step of isValidPhone: the global replace that removes
whitespace, dashes and parentheses (but not plus signs). -/
def cleanPhone (phone : String) : List Char :=
  phone.data.filter (fun c => !(jsWhitespace c || c == '-' || c == '(' || c == ')'))

/-- isValidPhone from src/function.js lines 218-223: the whole string matches
the allowed-character pattern and the cleaned string has at least 10
characters. -/
def isValidPhone (phone : String) : Bool :=
  reMatch phoneRegex phone.data && decide (10 ≤ (cleanPhone phone).length)

/-! ### URL validation

isValidURL calls the browser URL constructor, a platform built-in that is
not part of the repository, so we model it. The model follows the WHATWG
basic URL parser on the fragment the script exercises: an absolute URL needs
an ASCII-alpha-led scheme terminated by a colon; for the special schemes the
parser skips the authority slashes, takes the host up to a delimiter, and
fails on an empty host or a forbidden host character (spaces in particular);
non-special schemes parse as opaque paths. IDNA/punycode normalisation,
ports, userinfo, and input tab/newline stripping are elided, as no claim
depends on them. -/

/-- A character allowed after the first one inside a URL scheme. -/
def isSchemeChar (c : Char) : Bool :=
  c.isAlpha || c.isDigit || c == '+' || c == '-' || c == '.'

/-- Consume scheme characters until the terminating colon, returning the
scheme (accumulated reversed in acc) and the rest; fail if the string ends
or a non-scheme character appears before any colon. -/
def parseSchemeAux (acc : List Char) : List Char → Option (List Char × List Char)
  | [] => none
  | c :: rest =>
      if c == ':' then some (acc.reverse, rest)
      else if isSchemeChar c then parseSchemeAux (c :: acc) rest
      else none

/-- Split an input into scheme and remainder: the first character must be an
ASCII letter, then scheme characters up to a colon. -/
def parseScheme : List Char → Option (List Char × List Char)
  | [] => none
  | c :: rest => if c.isAlpha then parseSchemeAux [c] rest else none

/-- The special schemes of the WHATWG URL standard. -/
def isSpecialScheme (s : List Char) : Bool :=
  s == "http".data || s == "https".data || s == "ws".data ||
  s == "wss".data || s == "ftp".data || s == "file".data

/-- Forbidden host code points of the WHATWG URL standard (controls, space,
delimiters, percent). A host containing one makes parsing throw. -/
def forbiddenHostChar (c : Char) : Bool :=
  decide (c.toNat < 0x20) || c == ' ' || c == '#' || c == '/' || c == ':' ||
  c == '<' || c == '>' || c == '?' || c == '@' || c == '[' || c == '\\' ||
  c == ']' || c == '^' || c == '|' || c == '%' || c.toNat == 0x7f

/-- Modelled from the spec: the browser URL constructor (new URL) that
src/function.js lines 230 and 236 call is a platform built-in absent from the
repository; the spec describes it only as URL parsing that can fail. This
model returns the protocol (scheme plus colon, lowercased) on success and
none where the constructor throws. -/
def jsURLParse (s : String) : Option String :=
  match parseScheme s.data with
  | none => none
  | some (scheme, rest) =>
      let scheme := scheme.map Char.toLower
      if isSpecialScheme scheme then
        let afterSlashes := rest.dropWhile (fun c => c == '/' || c == '\\')
        let host := afterSlashes.takeWhile
          (fun c => !(c == '/' || c == '?' || c == '#' || c == ':'))
        if host.isEmpty && !(scheme == "file".data) then none
        else if host.any forbiddenHostChar then none
        else some (String.mk (scheme ++ [':']))
      else some (String.mk (scheme ++ [':']))

/-- Model of url.startsWith(prefix) on our list representation. -/
def jsStartsWith (s pre : String) : Bool :=
  s.data.take pre.data.length == pre.data

/-- isValidURL from src/function.js lines 228-244: accept when direct parsing
yields an http or https protocol; when direct parsing throws, retry with an
https:// prefix, but only for inputs that do not start with http; inputs
starting with http whose direct parse throws are rejected without the
fallback. -/
def isValidURL (url : String) : Bool :=
  match jsURLParse url with
  | some protocol => protocol == "http:" || protocol == "https:"
  | none =>
      if !(jsStartsWith url "http") then
        match jsURLParse ("https://" ++ url) with
        | some _ => true
        | none => false
      else false

/-! ### Field state and whole-form validation

The script manipulates, per input element, the classList flags invalid and
valid and the text of the sibling error-message span. We record the three in
a FieldState; the sibling span is assumed present, matching the DOM contract
of the spec. Both setFieldError and clearFieldError overwrite all three, so
neither depends on the prior state. -/

/-- The mutable per-input state the script touches: the two classList flags
and the error-message text. -/
structure FieldState where
  invalid : Bool
  valid : Bool
  errorMsg : String
  deriving DecidableEq, Repr

/-- setFieldError from src/function.js lines 249-257: add class invalid,
remove class valid, write the message into the error span. -/
def setFieldError (message : String) : FieldState :=
  { invalid := true, valid := false, errorMsg := message }

/-- clearFieldError from src/function.js lines 262-274: remove class invalid,
add class valid when the trimmed value is non-empty and remove it otherwise,
clear the error span. -/
def clearFieldError (value : String) : FieldState :=
  { invalid := false, valid := !(jsTrim value == ""), errorMsg := "" }

/-- An input element as the script sees it: its current value and its
class/error state. -/
structure Input where
  value : String
  cls : FieldState
  deriving DecidableEq, Repr

/-- The form: each named input is present (some) or absent from the DOM
(none), matching the querySelector guards of validateForm. -/
structure Form where
  first_name : Option Input
  last_name : Option Input
  email : Option Input
  company : Option Input
  phone : Option Input
  mobile : Option Input
  url : Option Input
  deriving DecidableEq, Repr

/-- One iteration of the required-fields loop of validateForm (src/function.js
lines 97-112): empty trimmed value sets the required error, an email-typed
field with an invalid address sets the email error, anything else clears. The
Bool is the contribution to isValid. -/
def processRequired (inp : Input) (label : String) (isEmail : Bool) : Input × Bool :=
  let value := jsTrim inp.value
  if value == "" then
    ({ inp with cls := setFieldError (label ++ " is required") }, false)
  else if isEmail && !isValidEmail value then
    ({ inp with cls := setFieldError "Please enter a valid email address" }, false)
  else
    ({ inp with cls := clearFieldError inp.value }, true)

/-- One iteration of the optional phone/mobile loop of validateForm
(src/function.js lines 116-127): a non-empty value failing isValidPhone sets
the error; otherwise the state is cleared when the value is non-empty or the
field currently carries the invalid class, and left untouched when empty and
not invalid. -/
def processPhone (inp : Input) : Input × Bool :=
  let value := jsTrim inp.value
  if !(value == "") && !isValidPhone value then
    ({ inp with cls := setFieldError "Please enter a valid phone number" }, false)
  else if !(value == "") || inp.cls.invalid then
    ({ inp with cls := clearFieldError inp.value }, true)
  else (inp, true)

/-- The optional website-URL block of validateForm (src/function.js lines
130-139), same shape as the phone block with isValidURL. -/
def processUrl (inp : Input) : Input × Bool :=
  let value := jsTrim inp.value
  if !(value == "") && !isValidURL value then
    ({ inp with cls := setFieldError "Please enter a valid website URL" }, false)
  else if !(value == "") || inp.cls.invalid then
    ({ inp with cls := clearFieldError inp.value }, true)
  else (inp, true)

/-- Lift a per-input step over an optional input: an absent input is skipped
and leaves isValid untouched (the if-not-input-return guard). -/
def stepOpt (f : Input → Input × Bool) : Option Input → Option Input × Bool
  | none => (none, true)
  | some i => ((f i).1, (f i).2)

/-- validateForm from src/function.js lines 86-142: run the required-fields
loop over first_name, last_name, email and company, then the optional phone,
mobile and url checks; isValid is true exactly when no step reported an
error. Fields are distinct DOM elements, so the steps are independent. -/
def validateForm (form : Form) : Form × Bool :=
  let r1 := stepOpt (fun i => processRequired i "First Name" false) form.first_name
  let r2 := stepOpt (fun i => processRequired i "Last Name" false) form.last_name
  let r3 := stepOpt (fun i => processRequired i "Email" true) form.email
  let r4 := stepOpt (fun i => processRequired i "Company" false) form.company
  let r5 := stepOpt processPhone form.phone
  let r6 := stepOpt processPhone form.mobile
  let r7 := stepOpt processUrl form.url
  ({ first_name := r1.1, last_name := r2.1, email := r3.1, company := r4.1,
     phone := r5.1, mobile := r6.1, url := r7.1 },
   r1.2 && r2.2 && r3.2 && r4.2 && r5.2 && r6.2 && r7.2)

/-- The observable outcome of the submit handler: the updated field states,
whether preventDefault was called on the event (blocking the native form
post), and the handler return value. Message display, scrolling and the
submit-button loading state are visual side effects elided here. -/
structure SubmitOutcome where
  form : Form
  prevented : Bool
  returnValue : Bool
  deriving DecidableEq, Repr

/-- handleFormSubmit from src/function.js lines 45-81: validate the whole
form; on failure call preventDefault and return false, on success let the
native submission proceed and return true. -/
def handleFormSubmit (form : Form) : SubmitOutcome :=
  let r := validateForm form
  if r.2 then { form := r.1, prevented := false, returnValue := true }
  else { form := r.1, prevented := true, returnValue := false }

/-- The four required fields of validateForm. -/
inductive ReqField where
  | firstName | lastName | email | company
  deriving DecidableEq, Repr

/-- The input element a required field denotes on a form. -/
def ReqField.fieldOf (form : Form) : ReqField → Option Input
  | .firstName => form.first_name
  | .lastName => form.last_name
  | .email => form.email
  | .company => form.company

/-- The label the requiredFields table of validateForm pairs with a field. -/
def ReqField.label : ReqField → String
  | .firstName => "First Name"
  | .lastName => "Last Name"
  | .email => "Email"
  | .company => "Company"

/-- An input whose value is whitespace only, in a neutral class state. -/
def wInput : Input :=
  { value := "  ", cls := { invalid := false, valid := false, errorMsg := "" } }

/-- A form whose only present input is a whitespace-only first_name. -/
def wForm : Form :=
  { first_name := some wInput, last_name := none, email := none,
    company := none, phone := none, mobile := none, url := none }

/-- A state-update operation on a field: setFieldError with a message, or
clearFieldError. -/
inductive FieldOp where
  | set (message : String)
  | clear
  deriving DecidableEq, Repr

/-- Apply one state-update operation to a field whose current value is value.
Both operations overwrite the whole class/error state, so the prior state is
unused. -/
def applyFieldOp (value : String) (_st : FieldState) : FieldOp → FieldState
  | FieldOp.set message => setFieldError message
  | FieldOp.clear => clearFieldError value

/-- Modelled from the spec: the setTimeout/clearTimeout timer machinery used
by debounce in src/function.js lines 318-330 is a platform built-in absent
from the repository; the spec describes it as a debounce timer with
reset-on-retrigger behaviour. Discrete event-loop model: the state is the
pending deadline of the debounce timeout (none when no timer is pending).
A keystroke at time t first lets a pending timer whose deadline has passed
fire (the deadline is the execution time of the debounced callback), then
cancels any still-pending timer and schedules a fresh one at t plus wait,
exactly as the closure body clearTimeout-then-setTimeout does; when the
keystroke trace ends, a pending timer fires. The keystroke times are given
in nondecreasing order; the result lists the execution times of the
debounced callback. -/
def debounceFires (wait : Nat) : Option Nat → List Nat → List Nat
  | some d, [] => [d]
  | none, [] => []
  | some d, t :: ts =>
      if d ≤ t then d :: debounceFires wait (some (t + wait)) ts
      else debounceFires wait (some (t + wait)) ts
  | none, t :: ts => debounceFires wait (some (t + wait)) ts

/-- Closed form of the debounce behaviour: a keystroke makes the callback run
wait later exactly when it is the last keystroke or the next keystroke comes
no sooner than wait later. -/
def debounceSpec (wait : Nat) : List Nat → List Nat
  | [] => []
  | [t] => [t + wait]
  | t :: t2 :: ts =>
      (if t + wait ≤ t2 then [t + wait] else []) ++ debounceSpec wait (t2 :: ts)

end WebToLead

namespace WebToLead

/-- C3: the email validator accepts a@b.co and rejects a@b, a@@b.com and the
empty string, exactly as the spec lists. -/
theorem email_examples :
    isValidEmail "a@b.co" = true ∧
    isValidEmail "a@b" = false ∧
    isValidEmail "a@@b.com" = false ∧
    isValidEmail "" = false := by
  decide

/-- C4: the phone validator accepts +1 (555) 123-4567 and rejects 12345
(fewer than 10 digits after cleaning) and abc-defg (characters outside the
allowed class). -/
theorem phone_examples :
    isValidPhone "+1 (555) 123-4567" = true ∧
    isValidPhone "12345" = false ∧
    isValidPhone "abc-defg" = false := by
  decide

/-- C5: the URL validator accepts example.com (direct parsing fails, the
https:// prefix fallback succeeds) and https://example.com, and rejects
not a url. -/
theorem url_examples :
    isValidURL "example.com" = true ∧
    jsURLParse "example.com" = none ∧
    isValidURL "https://example.com" = true ∧
    isValidURL "not a url" = false := by
  decide

/-- C9 counterexample: the claim says isValidURL accepts protocol-less
single-word no-dot inputs whenever https:// plus the input parses. The input
httpx refutes the universal clause: it is protocol-less (its direct parse
fails), a single word with no dot, and https://httpx parses, yet isValidURL
rejects it because the fallback is guarded by the input not starting with
http. -/
theorem url_no_dot_cex :
    jsURLParse "httpx" = none ∧
    ('.' ∉ "httpx".data) ∧
    (jsURLParse ("https://" ++ "httpx")).isSome = true ∧
    isValidURL "httpx" = false := by
  decide

/-- C9 amended: isValidURL accepts protocol-less inputs (direct parsing
fails) whenever https:// plus the input parses and the input does not start
with http; in particular it returns true for the dotless single words foo
and localhost, so acceptance does not require a dotted domain. -/
theorem url_no_dot_amended :
    (∀ url, jsURLParse url = none → jsStartsWith url "http" = false →
      (jsURLParse ("https://" ++ url)).isSome = true → isValidURL url = true) ∧
    isValidURL "foo" = true ∧
    isValidURL "localhost" = true := by
  refine ⟨?_, by decide, by decide⟩
  intro url hfail hsw hfb
  simp only [isValidURL, hfail, hsw, Bool.not_false, if_true]
  obtain ⟨p, hp⟩ := Option.isSome_iff_exists.mp hfb
  rw [hp]

/-- C9 amended, witnessed at foo: direct parsing fails, foo does not start
with http, https://foo parses, and the validator accepts. -/
theorem url_no_dot_amended_witness :
    isValidURL "foo" = true :=
  url_no_dot_amended.1 "foo" (by decide) (by decide) (by decide)

/-- C6 counterexample: the claim says every input whose direct parse fails
gets the https:// fallback before being declared invalid, so a false result
implies the fallback also failed. The input httpx refutes this: its direct
parse fails, isValidURL returns false, yet https://httpx parses fine — the
fallback was skipped because the input starts with http. -/
theorem url_fallback_cex :
    jsURLParse "httpx" = none ∧
    isValidURL "httpx" = false ∧
    (jsURLParse ("https://" ++ "httpx")).isSome = true := by
  decide

/-- C6 amended: for every input whose direct parse fails, if the input does
not start with http then isValidURL performs the https:// prefix fallback and
returns true exactly when that fallback parse succeeds; if the input does
start with http, isValidURL returns false without attempting the fallback. -/
theorem url_fallback_amended (url : String) (hfail : jsURLParse url = none) :
    (jsStartsWith url "http" = false →
      isValidURL url = (jsURLParse ("https://" ++ url)).isSome) ∧
    (jsStartsWith url "http" = true → isValidURL url = false) := by
  constructor
  · intro hsw
    simp only [isValidURL, hfail, hsw, Bool.not_false, if_pos]
    cases jsURLParse ("https://" ++ url) <;> rfl
  · intro hsw
    simp only [isValidURL, hfail, hsw, Bool.not_true]
    rfl

/-- C6 amended, witnessed at example.com: direct parsing fails, the input
does not start with http, and the validator equals the fallback parse
outcome. -/
theorem url_fallback_amended_witness :
    isValidURL "example.com" = (jsURLParse ("https://" ++ "example.com")).isSome :=
  (url_fallback_amended "example.com" (by decide)).1 (by decide)

/-- C1: the submit handler blocks the native form post (preventDefault plus a
false return) exactly when validateForm reports the form invalid, and lets
the native mechanism proceed with a true return when validateForm reports it
valid. -/
theorem submit_prevented_iff_invalid (form : Form) :
    (((handleFormSubmit form).prevented = true ∧
        (handleFormSubmit form).returnValue = false)
      ↔ (validateForm form).2 = false) ∧
    ((validateForm form).2 = true →
      (handleFormSubmit form).returnValue = true ∧
        (handleFormSubmit form).prevented = false) := by
  cases h : (validateForm form).2 <;> simp [handleFormSubmit, h]

/-- C1 witnessed on a form whose first_name is whitespace only: validation
fails, so the handler prevents the native post and returns false. -/
theorem submit_prevented_iff_invalid_witness :
    (handleFormSubmit wForm).prevented = true ∧
    (handleFormSubmit wForm).returnValue = false :=
  (submit_prevented_iff_invalid wForm).1.mpr (by decide)

/-- C2: whenever a required field (first_name, last_name, email, company) is
present on the form with a whitespace-only value, validateForm returns false
and leaves that field in the invalid error state carrying the message
Label is required. -/
theorem required_empty_blocks (form : Form) (f : ReqField) (inp : Input)
    (hin : f.fieldOf form = some inp) (hempty : jsTrim inp.value = "") :
    (validateForm form).2 = false ∧
    f.fieldOf (validateForm form).1 =
      some { inp with cls := setFieldError (f.label ++ " is required") } := by
  cases f <;>
    simp_all [ReqField.fieldOf, ReqField.label, validateForm, stepOpt, processRequired]

/-- C2 witnessed on the whitespace-only first_name form: validation fails and
first_name ends invalid with the required-field message. -/
theorem required_empty_blocks_witness :
    (validateForm wForm).2 = false ∧
    ReqField.fieldOf (validateForm wForm).1 ReqField.firstName =
      some { wInput with cls := setFieldError ("First Name" ++ " is required") } :=
  required_empty_blocks wForm ReqField.firstName wInput rfl (by decide)

/-- A single state-update operation lands in a state where valid and invalid
do not both hold, and where valid is off when the trimmed value is empty. -/
theorem applyFieldOp_inv (value : String) (st : FieldState) (op : FieldOp) :
    ((applyFieldOp value st op).valid && (applyFieldOp value st op).invalid) = false ∧
    (jsTrim value = "" → (applyFieldOp value st op).valid = false) := by
  cases op <;> simp [applyFieldOp, setFieldError, clearFieldError]

/-- The invariant of applyFieldOp_inv is kept by any further sequence of
state-update operations. -/
theorem foldl_applyFieldOp_inv (value : String) (st : FieldState) (ops : List FieldOp)
    (h1 : (st.valid && st.invalid) = false)
    (h2 : jsTrim value = "" → st.valid = false) :
    (((ops.foldl (applyFieldOp value) st).valid &&
      (ops.foldl (applyFieldOp value) st).invalid) = false) ∧
    (jsTrim value = "" → (ops.foldl (applyFieldOp value) st).valid = false) := by
  induction ops generalizing st with
  | nil => exact ⟨h1, h2⟩
  | cons op ops ih =>
      simp only [List.foldl_cons]
      exact ih (applyFieldOp value st op)
        (applyFieldOp_inv value st op).1 (applyFieldOp_inv value st op).2

/-- C10: after any non-empty sequence of setFieldError/clearFieldError
operations on a field, the classes valid and invalid are never both present,
and a field whose trimmed value is empty never carries valid. -/
theorem field_classes_exclusive (value : String) (st : FieldState)
    (op : FieldOp) (ops : List FieldOp) :
    ((((op :: ops).foldl (applyFieldOp value) st).valid &&
      ((op :: ops).foldl (applyFieldOp value) st).invalid) = false) ∧
    (jsTrim value = "" →
      ((op :: ops).foldl (applyFieldOp value) st).valid = false) := by
  simp only [List.foldl_cons]
  exact foldl_applyFieldOp_inv value (applyFieldOp value st op) ops
    (applyFieldOp_inv value st op).1 (applyFieldOp_inv value st op).2

/-- C10 witnessed: starting from a corrupt both-classes state with an empty
value, one setFieldError leaves valid off. -/
theorem field_classes_exclusive_witness :
    (([FieldOp.set "oops"].foldl (applyFieldOp "")
      { invalid := true, valid := true, errorMsg := "x" }).valid = false) :=
  (field_classes_exclusive "" { invalid := true, valid := true, errorMsg := "x" }
    (FieldOp.set "oops") []).2 (by decide)

/-- A non-empty run of characters from a class matches the one-or-more
pattern of that class. -/
theorem reMatch_star1_replicate (p : Char → Bool) (c : Char) (hp : p c = true) :
    ∀ n, 1 ≤ n → reMatch [RElem.star1 p] (List.replicate n c) = true := by
  intro n
  induction n with
  | zero => intro h; exact absurd h (by omega)
  | succ n ih =>
      intro _
      rw [List.replicate_succ, reMatch, hp, Bool.true_and]
      cases n with
      | zero => simp [reMatch]
      | succ m => simp [ih (by omega)]

/-- Filtering a run of one character keeps it whole when the character
passes the filter. -/
theorem filter_replicate_of_pos (p : Char → Bool) (c : Char) (hp : p c = true) :
    ∀ n, (List.replicate n c).filter p = List.replicate n c := by
  intro n
  induction n with
  | zero => rfl
  | succ n ih => rw [List.replicate_succ, List.filter_cons]; simp [hp, ih]

/-- C8: a string of 10 or more plus signs, containing no digit at all, is
accepted by the phone validator: plus is in the allowed class and the
cleaning step does not remove it, so the length-10 check passes. -/
theorem plus_only_phone (n : Nat) (h : 10 ≤ n) :
    isValidPhone (String.mk (List.replicate n '+')) = true ∧
    ∀ c ∈ (String.mk (List.replicate n '+')).data, c.isDigit = false := by
  constructor
  · have h1 : reMatch phoneRegex (String.mk (List.replicate n '+')).data = true :=
      reMatch_star1_replicate phoneChar '+' (by decide) n (by omega)
    have h2 : cleanPhone (String.mk (List.replicate n '+')) = List.replicate n '+' :=
      filter_replicate_of_pos _ '+' (by decide) n
    simp [isValidPhone, h1, h2, h]
  · intro c hc
    have hc' : c = '+' := List.eq_of_mem_replicate hc
    subst hc'
    decide

/-- C8 witnessed at exactly ten plus signs. -/
theorem plus_only_phone_witness :
    10 ≤ 10 ∧ isValidPhone (String.mk (List.replicate 10 '+')) = true :=
  ⟨by decide, (plus_only_phone 10 (by decide)).1⟩

/-- The pending-deadline semantics started right after a keystroke at t
agrees with the closed form on t consed to the remaining keystrokes. -/
theorem debounceFires_some_eq (wait : Nat) (t : Nat) (ts : List Nat) :
    debounceFires wait (some (t + wait)) ts = debounceSpec wait (t :: ts) := by
  induction ts generalizing t with
  | nil => rfl
  | cons t2 ts ih =>
      simp only [debounceFires, debounceSpec, ih t2]
      by_cases hle : t + wait ≤ t2 <;> simp [hle]

/-- The debounce semantics from the empty state agrees with the closed
form. -/
theorem debounceFires_none_eq (wait : Nat) (ts : List Nat) :
    debounceFires wait none ts = debounceSpec wait ts := by
  cases ts with
  | nil => rfl
  | cons t ts => simp only [debounceFires]; exact debounceFires_some_eq wait t ts

/-- Every execution in the closed form is at least wait after the first
keystroke. -/
theorem debounceSpec_lower (wait : Nat) :
    ∀ (t : Nat) (ts : List Nat), List.Sorted (· ≤ ·) (t :: ts) →
      ∀ f ∈ debounceSpec wait (t :: ts), t + wait ≤ f := by
  intro t ts
  induction ts generalizing t with
  | nil =>
      intro _ f hf
      simp [debounceSpec] at hf
      omega
  | cons t2 ts2 ih =>
      intro hs f hf
      simp only [debounceSpec, List.mem_append] at hf
      have ht2 : t ≤ t2 := (List.sorted_cons.mp hs).1 t2 (by simp)
      cases hf with
      | inl h1 =>
          by_cases hle : t + wait ≤ t2 <;> simp [hle] at h1
          omega
      | inr h2 =>
          have := ih t2 (List.sorted_cons.mp hs).2 f h2
          omega

/-- Every execution in the closed form is wait after a keystroke that ends a
quiet period: every other keystroke is either no later than it or at least
wait after it. -/
theorem debounceSpec_mem (wait : Nat) :
    ∀ (ts : List Nat), List.Sorted (· ≤ ·) ts →
      ∀ f ∈ debounceSpec wait ts,
        ∃ t ∈ ts, f = t + wait ∧ ∀ u ∈ ts, u ≤ t ∨ t + wait ≤ u := by
  intro ts
  induction ts with
  | nil => intro _ f hf; simp [debounceSpec] at hf
  | cons t ts ih =>
      intro hs f hf
      cases ts with
      | nil =>
          simp [debounceSpec] at hf
          exact ⟨t, by simp, by omega, by simp⟩
      | cons t2 ts2 =>
          rw [List.sorted_cons] at hs
          simp only [debounceSpec, List.mem_append] at hf
          cases hf with
          | inl h1 =>
              by_cases hle : t + wait ≤ t2 <;> simp [hle] at h1
              refine ⟨t, by simp, by omega, ?_⟩
              intro u hu
              rcases List.mem_cons.mp hu with h | h
              · subst h; left; omega
              · right
                rcases List.mem_cons.mp h with h' | h'
                · omega
                · have : t2 ≤ u := (List.sorted_cons.mp hs.2).1 u h'
                  omega
          | inr h2 =>
              obtain ⟨τ, hτmem, hfτ, hquiet⟩ := ih hs.2 f h2
              refine ⟨τ, List.mem_cons_of_mem _ hτmem, hfτ, ?_⟩
              intro u hu
              rcases List.mem_cons.mp hu with h | h
              · subst h; exact Or.inl (hs.1 τ hτmem)
              · exact hquiet u h

/-- The executions of the closed form are strictly increasing, so no quiet
period yields more than one run. -/
theorem debounceSpec_sorted (wait : Nat) (hw : 0 < wait) :
    ∀ (ts : List Nat), List.Sorted (· ≤ ·) ts →
      List.Sorted (· < ·) (debounceSpec wait ts) := by
  intro ts
  induction ts with
  | nil => intro _; simp [debounceSpec]
  | cons t ts ih =>
      intro hs
      cases ts with
      | nil => simp [debounceSpec]
      | cons t2 ts2 =>
          have hs2 := (List.sorted_cons.mp hs).2
          have htail := ih hs2
          simp only [debounceSpec]
          by_cases hle : t + wait ≤ t2
          · simp only [if_pos hle, List.singleton_append]
            rw [List.sorted_cons]
            refine ⟨?_, htail⟩
            intro b hb
            have := debounceSpec_lower wait t2 ts2 hs2 b hb
            omega
          · simp only [if_neg hle, List.nil_append]
            exact htail

/-- The last keystroke always gets its run, wait after it. -/
theorem debounceSpec_last (wait : Nat) :
    ∀ (ts : List Nat) (last : Nat),
      ts.getLast? = some last → last + wait ∈ debounceSpec wait ts := by
  intro ts
  induction ts with
  | nil => intro last h; simp at h
  | cons t ts ih =>
      intro last h
      cases ts with
      | nil => simp at h; subst h; simp [debounceSpec]
      | cons t2 ts2 =>
          rw [List.getLast?_cons_cons] at h
          simp only [debounceSpec, List.mem_append]
          exact Or.inr (ih last h)

/-- C7: with keystroke times in nondecreasing order, every debounced run of
the email re-validation happens exactly 500 after a keystroke that no other
keystroke follows within 500 (so never earlier than 500 after the final
keystroke of its burst), the runs are strictly increasing in time (at most
one per quiet period, each retrigger having cancelled the pending timer),
and the last keystroke always gets its run 500 later. -/
theorem email_debounce (ts : List Nat) (hs : List.Sorted (· ≤ ·) ts) :
    (∀ f ∈ debounceFires 500 none ts,
      ∃ t ∈ ts, f = t + 500 ∧ ∀ u ∈ ts, u ≤ t ∨ t + 500 ≤ u) ∧
    List.Sorted (· < ·) (debounceFires 500 none ts) ∧
    (∀ last, ts.getLast? = some last → last + 500 ∈ debounceFires 500 none ts) := by
  rw [debounceFires_none_eq]
  exact ⟨debounceSpec_mem 500 ts hs, debounceSpec_sorted 500 (by omega) ts hs,
    fun last h => debounceSpec_last 500 ts last h⟩

/-- C7 witnessed on keystrokes at 0, 300 and 1000: the final keystroke is
re-validated at 1500. -/
theorem email_debounce_witness :
    List.Sorted (· ≤ ·) [0, 300, 1000] ∧
    1000 + 500 ∈ debounceFires 500 none [0, 300, 1000] :=
  ⟨by decide, (email_debounce [0, 300, 1000] (by decide)).2.2 1000 (by decide)⟩

end WebToLead
